import Mathlib

/-
  Verification development for the dyeing spectral-analysis frontend.

  Embedded source files:
  - frontend/utils/color.ts (shipped inside src/run.bat after the build
    separator): `interpolate`, `reflectanceToColor` (XYZ integration part),
    `RtoKS`, `KStoR`, and the condensed CMF/D65 table `cmfData`.
  - frontend/components/PredictionPanel.tsx (src/unnamed/part_004): the
    `prediction` useMemo pipeline (clamping, depth factor, R -> K/S -> R).
  - frontend/services/api.ts: the mock `analyzeConcentration` (NNLS
    resolution endpoint of this repository).

  Numeric model: JS numbers are modelled as elements of a linear ordered
  field (instantiated at ℚ for executable checks and at ℝ where Math.sqrt
  is needed).  Math.random() is modelled as an explicit stream of draws
  `rand : ℕ → ℚ`, one index per call, in the order the source draws them.
-/

namespace Dyeing

section ColorUtils

variable {α : Type*} [LinearOrderedField α]

/- One row of the condensed CIE 1931 2-degree observer + D65 table from
   frontend/utils/color.ts (`cmfData`).  Fields keep the source's names. -/
structure CMFRow where
  nm : ℚ
  x : ℚ
  y : ℚ
  z : ℚ
  d65 : ℚ
  deriving DecidableEq

/- The `cmfData` table: keys 400,410,...,700 exactly as in the source. -/
def cmfData : List CMFRow :=
  [ ⟨400, 0.0143, 0.0004, 0.0679, 82.75⟩,
    ⟨410, 0.0435, 0.0012, 0.2074, 91.49⟩,
    ⟨420, 0.1344, 0.0040, 0.6456, 93.43⟩,
    ⟨430, 0.2839, 0.0116, 1.3856, 86.68⟩,
    ⟨440, 0.3483, 0.0230, 1.7471, 104.86⟩,
    ⟨450, 0.3362, 0.0380, 1.7721, 117.01⟩,
    ⟨460, 0.2908, 0.0600, 1.6692, 117.81⟩,
    ⟨470, 0.1954, 0.0910, 1.2876, 114.86⟩,
    ⟨480, 0.0956, 0.1390, 0.8130, 115.92⟩,
    ⟨490, 0.0320, 0.2080, 0.4652, 108.81⟩,
    ⟨500, 0.0049, 0.3230, 0.2720, 109.35⟩,
    ⟨510, 0.0093, 0.5030, 0.1582, 107.80⟩,
    ⟨520, 0.0633, 0.7100, 0.0782, 104.79⟩,
    ⟨530, 0.1655, 0.8620, 0.0422, 107.69⟩,
    ⟨540, 0.2904, 0.9540, 0.0203, 104.41⟩,
    ⟨550, 0.4334, 0.9950, 0.0087, 104.05⟩,
    ⟨560, 0.5945, 0.9950, 0.0039, 100.00⟩,
    ⟨570, 0.7621, 0.9520, 0.0021, 96.33⟩,
    ⟨580, 0.9163, 0.8700, 0.0017, 95.79⟩,
    ⟨590, 1.0263, 0.7570, 0.0011, 88.69⟩,
    ⟨600, 1.0622, 0.6310, 0.0008, 90.01⟩,
    ⟨610, 1.0026, 0.5030, 0.0003, 89.60⟩,
    ⟨620, 0.8544, 0.3810, 0.0002, 87.70⟩,
    ⟨630, 0.6424, 0.2650, 0.0000, 83.29⟩,
    ⟨640, 0.4479, 0.1750, 0.0000, 83.70⟩,
    ⟨650, 0.2835, 0.1070, 0.0000, 80.03⟩,
    ⟨660, 0.1649, 0.0610, 0.0000, 80.21⟩,
    ⟨670, 0.0874, 0.0320, 0.0000, 82.28⟩,
    ⟨680, 0.0468, 0.0170, 0.0000, 78.28⟩,
    ⟨690, 0.0227, 0.0082, 0.0000, 69.72⟩,
    ⟨700, 0.0114, 0.0041, 0.0000, 71.61⟩ ]

/- JS `Array.prototype.findIndex(l => l >= target)` with running index:
   returns the index (from start `i`) of the first element ≥ target,
   `none` when no element qualifies (JS returns -1). -/
def findGE (target : α) : List α → ℕ → Option ℕ
  | [], _ => none
  | l :: ls, i => if target ≤ l then some i else findGE target ls (i + 1)

/- `interpolate(lambda, values, target)` from frontend/utils/color.ts.
   JS corner cases preserved: on an empty `lambda` both boundary
   comparisons (against `undefined`) are false and `findIndex` gives -1,
   so the function returns 0; out-of-range reads use default 0. -/
def interpolate (lam vals : List α) (target : α) : α :=
  if lam.length = 0 then 0
  else if target ≤ lam.getD 0 0 then vals.getD 0 0
  else if lam.getD (lam.length - 1) 0 ≤ target then vals.getD (vals.length - 1) 0
  else
    match findGE target lam 0 with
    | none => 0
    | some idx =>
      let x0 := lam.getD (idx - 1) 0
      let x1 := lam.getD idx 0
      let y0 := vals.getD (idx - 1) 0
      let y1 := vals.getD idx 0
      y0 + (y1 - y0) * ((target - x0) / (x1 - x0))

/- `rVal > 1 ? rVal / 100 : rVal` inside reflectanceToColor's loop. -/
def rFactor (lam R : List α) (nm : ℚ) : α :=
  let rVal := interpolate lam R ((nm : α))
  if 1 < rVal then rVal / 100 else rVal

/- Accumulated X over the 400..700 step-10 loop (every lookup in cmfData
   succeeds because the table holds exactly those keys). -/
def sumX (lam R : List α) : α :=
  (cmfData.map (fun p => rFactor lam R p.nm * ((p.d65 : α)) * ((p.x : α)))).sum

def sumY (lam R : List α) : α :=
  (cmfData.map (fun p => rFactor lam R p.nm * ((p.d65 : α)) * ((p.y : α)))).sum

def sumZ (lam R : List α) : α :=
  (cmfData.map (fun p => rFactor lam R p.nm * ((p.d65 : α)) * ((p.z : α)))).sum

/- The normaliser N = Σ d65·ȳ accumulated in the same loop. -/
def sumN : α :=
  (cmfData.map (fun p => ((p.d65 : α)) * ((p.y : α)))).sum

/- Normalised tristimulus values X,Y,Z of reflectanceToColor. -/
def tristimulusX (lam R : List α) : α := sumX lam R / sumN * 100

def tristimulusY (lam R : List α) : α := sumY lam R / sumN * 100

def tristimulusZ (lam R : List α) : α := sumZ lam R / sumN * 100

/- The `xyz` component of reflectanceToColor's result.  The `lab` and
   `rgb` components of the source are further pure functions of this
   triple, so equal XYZ forces an equal ColorResult. -/
def reflectanceToColorXYZ (lam R : List α) : α × α × α :=
  (tristimulusX lam R, tristimulusY lam R, tristimulusZ lam R)

end ColorUtils

section KubelkaMunk

variable {α : Type*} [LinearOrderedField α]

/- `RtoKS(R)`: clamp to [0.001, 0.999], then (1-R)^2 / (2R). -/
def RtoKS (R : α) : α :=
  let rNorm := max 0.001 (min 0.999 R)
  (1 - rNorm) ^ 2 / (2 * rNorm)

/- `KStoR(KS) = 1 + KS - sqrt(KS^2 + 2 KS)`; Math.sqrt forces ℝ. -/
noncomputable def KStoR (KS : ℝ) : ℝ :=
  1 + KS - Real.sqrt (KS ^ 2 + 2 * KS)

end KubelkaMunk

section Prediction

variable {α : Type*} [LinearOrderedField α]

/- The two sequential clamps at the top of PredictionPanel's loop:
   `if(R <= 0.001) R = 0.001; if(R >= 0.999) R = 0.999;`. -/
def clampR (R : α) : α :=
  let r1 := if R ≤ 0.001 then 0.001 else R
  if 0.999 ≤ r1 then 0.999 else r1

/- JS `params.liquorRatio || 1`: 0 (the only falsy finite number in this
   model) is replaced by 1. -/
def orOne (x : α) : α := if x = 0 then 1 else x

/- `depthFactor = (exhaustionRate / 70) * (10 / ratio)` with
   baselineExhaustion = 70 and baselineRatio = 10. -/
def depthFactor (er lr : α) : α :=
  (er / 70) * (10 / orOne lr)

/- The predicted reflectance curve `newR` built by PredictionPanel's
   `prediction` useMemo: the loop runs over lambda's indices and pushes
   KStoR(RtoKS(clamped fitted[i]) * depthFactor). -/
noncomputable def predictNewR (lam fitted : List ℝ) (er lr : ℝ) : List ℝ :=
  (List.range lam.length).map
    (fun i => KStoR (RtoKS (clampR (fitted.getD i 0)) * depthFactor er lr))

end Prediction

section MockAPI

/- Data model of the stored spectra used by api.ts (`db[filename]`). -/
structure SpectrumMeta where
  name : String
  deriving DecidableEq

structure SpectrumData where
  lambda : List ℚ
  A : List ℚ
  deriving DecidableEq

structure StoredSpectrum where
  meta : SpectrumMeta
  data : SpectrumData
  deriving DecidableEq

structure Component where
  name : String
  concentration : ℚ
  contribution : ℚ
  deriving DecidableEq

structure Metrics where
  rmse : ℚ
  residual_norm : ℚ
  deriving DecidableEq

structure ChartData where
  lambda : List ℚ
  original : List ℚ
  fitted : List ℚ
  residual : List ℚ
  deriving DecidableEq

structure ConcentrationResult where
  components : List Component
  metrics : Metrics
  chart_data : ChartData
  deriving DecidableEq

/- JS `std?.meta.name || fname`: undefined lookup or empty name falls
   back to the filename. -/
def componentName (db : String → Option StoredSpectrum) (fname : String) : String :=
  match db fname with
  | some std => if std.meta.name = "" then fname else std.meta.name
  | none => fname

/- The `components` array built by `standardFilenames.map(...)` before the
   contribution pass: the i-th entry draws the i-th Math.random() value
   (`conc = 0.1 + Math.random() * 0.7`).  JS `array.map((v, i) => ...)`
   is rendered as a map over `List.range` with indexed reads. -/
def mockComponents (db : String → Option StoredSpectrum)
    (standardFilenames : List String) (rand : ℕ → ℚ) : List Component :=
  (List.range standardFilenames.length).map (fun i =>
    { name := componentName db (standardFilenames.getD i ""),
      concentration := 1/10 + rand i * (7/10),
      contribution := 0 })

/- `totalConc = components.reduce((acc, c) => acc + c.concentration, 0)`. -/
def mockTotalConc (db : String → Option StoredSpectrum)
    (standardFilenames : List String) (rand : ℕ → ℚ) : ℚ :=
  ((mockComponents db standardFilenames rand).map (fun c => c.concentration)).sum

/- `components.forEach(c => c.contribution = totalConc > 0 ? ... : 0)`. -/
def withContribution (totalConc : ℚ) (comps : List Component) : List Component :=
  comps.map (fun c =>
    { c with contribution :=
        if 0 < totalConc then c.concentration / totalConc * 100 else 0 })

/- `fitted = original.map(v => v * (0.96 + Math.random() * 0.08))`; the
   j-th point consumes draw k + j where k standards were drawn first. -/
def mockFitted (original : List ℚ) (k : ℕ) (rand : ℕ → ℚ) : List ℚ :=
  (List.range original.length).map
    (fun j => original.getD j 0 * (96/100 + rand (k + j) * (8/100)))

/- `residual = original.map((v, i) => v - fitted[i])`. -/
def mockResidual (original fitted : List ℚ) : List ℚ :=
  (List.range original.length).map (fun j => original.getD j 0 - fitted.getD j 0)

/- `analyzeConcentration(sampleFilename, standardFilenames)` from
   frontend/services/api.ts.  `db` is the parsed localStorage database;
   `rand n` is the n-th Math.random() draw of the call.  Draw order in
   the source: one per standard (concentration), then one per sample
   point (fitted perturbation), then rmse, then residual_norm.  A missing
   sample throws ("样品数据丢失"), modelled as `none`. -/
def analyzeConcentration (db : String → Option StoredSpectrum)
    (sampleFilename : String) (standardFilenames : List String)
    (rand : ℕ → ℚ) : Option ConcentrationResult :=
  match db sampleFilename with
  | none => none
  | some sample =>
    let k := standardFilenames.length
    let comps := withContribution (mockTotalConc db standardFilenames rand)
      (mockComponents db standardFilenames rand)
    let original := sample.data.A
    let m := original.length
    let fitted := mockFitted original k rand
    let residual := mockResidual original fitted
    some
      { components := comps,
        metrics :=
          { rmse := 12/10000 + rand (k + m) * (8/10000),
            residual_norm := 15/1000 + rand (k + m + 1) * (5/1000) },
        chart_data :=
          { lambda := sample.data.lambda,
            original := original,
            fitted := fitted,
            residual := residual } }

end MockAPI

section KMLemmas

lemma RtoKS_eq_of_bounds (R : ℝ) (h1 : (0.001 : ℝ) ≤ R) (h2 : R ≤ 0.999) :
    RtoKS R = (1 - R) ^ 2 / (2 * R) := by
  unfold RtoKS
  rw [min_eq_right h2, max_eq_right h1]

lemma RtoKS_nonneg (R : ℝ) : 0 ≤ RtoKS R := by
  unfold RtoKS
  have h : (0 : ℝ) < max 0.001 (min 0.999 R) :=
    lt_of_lt_of_le (by norm_num) (le_max_left _ _)
  exact div_nonneg (sq_nonneg _) (by linarith)

lemma KStoR_RtoKS_core (R : ℝ) (h0 : 0 < R) (h1 : R < 1) :
    KStoR ((1 - R) ^ 2 / (2 * R)) = R := by
  unfold KStoR
  have hq : ((1 - R) ^ 2 / (2 * R)) ^ 2 + 2 * ((1 - R) ^ 2 / (2 * R))
      = ((1 - R ^ 2) / (2 * R)) ^ 2 := by
    field_simp
    ring
  have hnn : (0 : ℝ) ≤ (1 - R ^ 2) / (2 * R) := by
    apply div_nonneg
    · nlinarith
    · linarith
  rw [hq, Real.sqrt_sq hnn]
  field_simp
  ring

lemma KStoR_RtoKS (R : ℝ) (h1 : (0.001 : ℝ) ≤ R) (h2 : R ≤ 0.999) :
    KStoR (RtoKS R) = R := by
  rw [RtoKS_eq_of_bounds R h1 h2]
  exact KStoR_RtoKS_core R (by linarith) (by linarith)

lemma KStoR_inv_form (KS : ℝ) (h : 0 ≤ KS) :
    KStoR KS = 1 / (1 + KS + Real.sqrt (KS ^ 2 + 2 * KS)) := by
  have hs : Real.sqrt (KS ^ 2 + 2 * KS) ^ 2 = KS ^ 2 + 2 * KS :=
    Real.sq_sqrt (by positivity)
  have hsnn : 0 ≤ Real.sqrt (KS ^ 2 + 2 * KS) := Real.sqrt_nonneg _
  have hden : 0 < 1 + KS + Real.sqrt (KS ^ 2 + 2 * KS) := by linarith
  unfold KStoR
  rw [eq_div_iff (ne_of_gt hden)]
  nlinarith [hs]

lemma KStoR_pos (KS : ℝ) (h : 0 ≤ KS) : 0 < KStoR KS := by
  have hsnn : 0 ≤ Real.sqrt (KS ^ 2 + 2 * KS) := Real.sqrt_nonneg _
  rw [KStoR_inv_form KS h]
  exact one_div_pos.mpr (by linarith)

lemma KStoR_le_one (KS : ℝ) (h : 0 ≤ KS) : KStoR KS ≤ 1 := by
  have hsnn : 0 ≤ Real.sqrt (KS ^ 2 + 2 * KS) := Real.sqrt_nonneg _
  rw [KStoR_inv_form KS h]
  rw [div_le_one (by linarith)]
  linarith

lemma KStoR_zero : KStoR 0 = 1 := by
  unfold KStoR
  norm_num

lemma KStoR_strictAnti (a b : ℝ) (ha : 0 ≤ a) (hab : a < b) :
    KStoR b < KStoR a := by
  have hb : (0 : ℝ) ≤ b := by linarith
  have hsa : 0 ≤ Real.sqrt (a ^ 2 + 2 * a) := Real.sqrt_nonneg _
  have hmono : Real.sqrt (a ^ 2 + 2 * a) ≤ Real.sqrt (b ^ 2 + 2 * b) :=
    Real.sqrt_le_sqrt (by nlinarith)
  rw [KStoR_inv_form a ha, KStoR_inv_form b hb]
  exact one_div_lt_one_div_of_lt (by linarith) (by linarith)

lemma clampR_eq_of_bounds (x : ℝ) (h1 : (0.001 : ℝ) ≤ x) (h2 : x ≤ 0.999) :
    clampR x = x := by
  simp only [clampR]
  split_ifs with hlo hhi hhi <;> linarith

lemma depthFactor_baseline : depthFactor (70 : ℝ) 10 = 1 := by
  unfold depthFactor orOne
  norm_num

end KMLemmas

section ClaimC2

/-- Claim C2: for every reflectance R in [0.01, 0.99], the Kubelka-Munk
round trip KStoR(RtoKS(R)) returns R within 1e-6 (in the real-number
model it is exact, so the tolerance holds). -/
theorem c2_roundtrip (R : ℝ) (h1 : (0.01 : ℝ) ≤ R) (h2 : R ≤ 0.99) :
    |KStoR (RtoKS R) - R| ≤ 1e-6 := by
  rw [KStoR_RtoKS R (by linarith) (by linarith)]
  simp
  norm_num

/-- Witness for C2 at R = 1/2. -/
theorem c2_witness :
    (0.01 : ℝ) ≤ 1 / 2 ∧ (1 / 2 : ℝ) ≤ 0.99 ∧
      |KStoR (RtoKS (1 / 2 : ℝ)) - 1 / 2| ≤ 1e-6 :=
  ⟨by norm_num, by norm_num, c2_roundtrip (1 / 2) (by norm_num) (by norm_num)⟩

end ClaimC2

section ClaimC10

/-- Claim C10: the prediction pipeline never divides by zero in the depth
factor: the effective liquor ratio `lr or-else 1` is never 0, and with
liquorRatio = 0 the depth factor is (exhaustionRate/70)·(10/1). -/
theorem c10_no_div_by_zero :
    (∀ lr : ℝ, orOne lr ≠ 0) ∧
      (∀ er : ℝ, depthFactor er 0 = er / 70 * (10 / 1)) := by
  constructor
  · intro lr
    unfold orOne
    split_ifs with h
    · norm_num
    · exact h
  · intro er
    unfold depthFactor orOne
    norm_num

end ClaimC10

section ClaimC9

/-- Claim C9: for every KS ≥ 0, KStoR(KS) lies in (0, 1], KStoR(0) = 1,
KStoR is strictly decreasing on nonnegative inputs, and every reflectance
value the prediction pipeline produces (fed only nonnegative K/S values
once the depth factor is nonnegative) lies in (0, 1]. -/
theorem c9_kstor_range (KS : ℝ) (h : 0 ≤ KS) :
    (0 < KStoR KS ∧ KStoR KS ≤ 1) ∧ KStoR 0 = 1 ∧
      (∀ a b : ℝ, 0 ≤ a → a < b → KStoR b < KStoR a) ∧
      (∀ lam fitted : List ℝ, ∀ er lr : ℝ, 0 ≤ depthFactor er lr →
        ∀ v ∈ predictNewR lam fitted er lr, 0 < v ∧ v ≤ 1) := by
  refine ⟨⟨KStoR_pos KS h, KStoR_le_one KS h⟩, KStoR_zero, ?_, ?_⟩
  · intro a b ha hab
    exact KStoR_strictAnti a b ha hab
  · intro lam fitted er lr hdf v hv
    unfold predictNewR at hv
    simp only [List.mem_map, List.mem_range] at hv
    obtain ⟨i, _, rfl⟩ := hv
    have hks : 0 ≤ RtoKS (clampR (fitted.getD i 0)) * depthFactor er lr :=
      mul_nonneg (RtoKS_nonneg _) hdf
    exact ⟨KStoR_pos _ hks, KStoR_le_one _ hks⟩

/-- Witness for C9 at KS = 2. -/
theorem c9_witness : (0 : ℝ) ≤ 2 ∧ (0 < KStoR 2 ∧ KStoR 2 ≤ 1) :=
  ⟨by norm_num, (c9_kstor_range 2 (by norm_num)).1⟩

end ClaimC9

section ClaimC3

/-- Claim C3 counterexample: a base curve holding the reflectance value 1
is clamped to 0.999 by the pipeline even under baseline parameters
(exhaustionRate 70, liquorRatio 10, depthFactor 1), and 0.001 exceeds
floating tolerance, so the output is not the base curve. -/
theorem c3_counterexample :
    predictNewR [400] [1] 70 10 = [0.999] ∧ ¬ (|(0.999 : ℝ) - 1| ≤ 1e-6) := by
  constructor
  · unfold predictNewR
    rw [depthFactor_baseline]
    simp only [List.length_singleton, List.range_succ, List.range_zero, List.nil_append,
      List.map_cons, List.map_nil, List.getD_cons_zero]
    rw [mul_one]
    rw [show clampR (1 : ℝ) = 0.999 by simp only [clampR]; norm_num]
    rw [KStoR_RtoKS 0.999 (by norm_num) (by norm_num)]
  · rw [abs_sub_comm, show |(1 : ℝ) - 0.999| = 0.001 by rw [abs_of_pos] <;> norm_num]
    norm_num

/-- Claim C3 (amended): under the baseline parameters exhaustionRate = 70
and liquorRatio = 10 (depthFactor = 1) the pipeline reproduces the base
curve exactly, and hence the same predicted color, provided every base
value lies in the clamp range [0.001, 0.999]; in general the output is
the base curve with each value clamped to that range. -/
theorem c3_baseline_identity (lam fitted : List ℝ)
    (hlen : lam.length = fitted.length)
    (hmem : ∀ v ∈ fitted, (0.001 : ℝ) ≤ v ∧ v ≤ 0.999) :
    predictNewR lam fitted 70 10 = fitted ∧
      reflectanceToColorXYZ lam (predictNewR lam fitted 70 10)
        = reflectanceToColorXYZ lam fitted := by
  have hmain : predictNewR lam fitted 70 10 = fitted := by
    unfold predictNewR
    rw [depthFactor_baseline]
    apply List.ext_getElem
    · simp [hlen]
    · intro i ha hb
      simp only [List.getElem_map, List.getElem_range]
      rw [mul_one, List.getD_eq_getElem fitted 0 hb]
      have hbnd := hmem fitted[i] (List.getElem_mem hb)
      rw [clampR_eq_of_bounds _ hbnd.1 hbnd.2]
      exact KStoR_RtoKS _ hbnd.1 hbnd.2
  exact ⟨hmain, by rw [hmain]⟩

/-- Witness for the amended C3 on the one-point curve (400 nm, R = 0.5). -/
theorem c3_witness :
    ([400] : List ℝ).length = ([0.5] : List ℝ).length ∧
      (∀ v ∈ ([0.5] : List ℝ), (0.001 : ℝ) ≤ v ∧ v ≤ 0.999) ∧
      predictNewR [400] [0.5] 70 10 = [0.5] := by
  have hb : ∀ v ∈ ([0.5] : List ℝ), (0.001 : ℝ) ≤ v ∧ v ≤ 0.999 := by
    intro v hv
    simp only [List.mem_singleton] at hv
    rw [hv]
    norm_num
  exact ⟨rfl, hb, (c3_baseline_identity [400] [0.5] rfl hb).1⟩

end ClaimC3

section InterpolateLemmas

variable {α : Type*} [LinearOrderedField α]

lemma findGE_shift (t : α) (l : List α) (s : ℕ) :
    findGE t l (s + 1) = Option.map (· + 1) (findGE t l s) := by
  induction l generalizing s with
  | nil => rfl
  | cons x xs ih =>
    unfold findGE
    split_ifs with h
    · rfl
    · exact ih (s + 1)

lemma findGE_eq_none_iff (t : α) (l : List α) (s : ℕ) :
    findGE t l s = none ↔ ∀ x ∈ l, ¬ t ≤ x := by
  induction l generalizing s with
  | nil => simp [findGE]
  | cons x xs ih =>
    unfold findGE
    split_ifs with h
    · simp [h]
    · rw [ih (s + 1)]
      simp only [List.forall_mem_cons]
      constructor
      · intro hall
        exact ⟨h, hall⟩
      · intro hall
        exact hall.2

lemma findGE_spec (t : α) (l : List α) (i : ℕ) (h : findGE t l 0 = some i) :
    i < l.length ∧ t ≤ l.getD i 0 ∧ ∀ j < i, ¬ t ≤ l.getD j 0 := by
  induction l generalizing i with
  | nil => simp [findGE] at h
  | cons x xs ih =>
    unfold findGE at h
    split_ifs at h with hx
    · cases h
      refine ⟨by simp, by simpa using hx, ?_⟩
      intro j hj
      omega
    · rw [findGE_shift] at h
      obtain ⟨i0, hi0, rfl⟩ := Option.map_eq_some'.mp h
      obtain ⟨hlt, hle, hmin⟩ := ih i0 hi0
      refine ⟨by simpa using hlt, by simpa using hle, ?_⟩
      intro j hj
      cases j with
      | zero => simpa using hx
      | succ j0 =>
        rw [List.getD_cons_succ]
        exact hmin j0 (by omega)

/- Full case analysis of `interpolate` on a nonempty strictly ascending
   curve: edge-hold on both sides, bracketed linear interpolation in the
   interior. -/
lemma interpolate_cases (lam vals : List α) (target : α)
    (hne : 0 < lam.length) (hsort : List.Sorted (· < ·) lam) :
    (target ≤ lam.getD 0 0 → interpolate lam vals target = vals.getD 0 0) ∧
      (lam.getD (lam.length - 1) 0 ≤ target →
        interpolate lam vals target = vals.getD (vals.length - 1) 0 ∨
          (lam.length = 1 ∧ interpolate lam vals target = vals.getD 0 0)) ∧
      (lam.getD 0 0 < target → target < lam.getD (lam.length - 1) 0 →
        ∃ i, 1 ≤ i ∧ i < lam.length ∧
          lam.getD (i - 1) 0 < target ∧ target ≤ lam.getD i 0 ∧
          interpolate lam vals target =
            vals.getD (i - 1) 0 + (vals.getD i 0 - vals.getD (i - 1) 0) *
              ((target - lam.getD (i - 1) 0) / (lam.getD i 0 - lam.getD (i - 1) 0))) := by
  have h0 : ¬ lam.length = 0 := by omega
  refine ⟨?_, ?_, ?_⟩
  · intro hle
    unfold interpolate
    rw [if_neg h0, if_pos hle]
  · intro hge
    unfold interpolate
    rw [if_neg h0]
    by_cases hle : target ≤ lam.getD 0 0
    · rw [if_pos hle]
      right
      refine ⟨?_, rfl⟩
      by_contra hlen2
      have h2 : 2 ≤ lam.length := by omega
      have := List.pairwise_iff_getElem.mp hsort 0 (lam.length - 1)
        (by omega) (by omega) (by omega)
      rw [← List.getD_eq_getElem lam 0 (by omega : 0 < lam.length),
        ← List.getD_eq_getElem lam 0 (by omega : lam.length - 1 < lam.length)] at this
      linarith
    · rw [if_neg hle, if_pos hge]
      left
      rfl
  · intro hlt1 hlt2
    unfold interpolate
    rw [if_neg h0, if_neg (not_le.mpr hlt1), if_neg (not_le.mpr hlt2)]
    rcases hf : findGE target lam 0 with _ | idx
    · exfalso
      have hall := (findGE_eq_none_iff target lam 0).mp hf
      have hmem : lam.getD (lam.length - 1) 0 ∈ lam := by
        rw [List.getD_eq_getElem lam 0 (by omega : lam.length - 1 < lam.length)]
        exact List.getElem_mem _
      exact hall _ hmem (le_of_lt hlt2)
    · obtain ⟨hilen, hile, himin⟩ := findGE_spec target lam idx hf
      have hi1 : 1 ≤ idx := by
        rcases Nat.eq_zero_or_pos idx with h | h
        · subst h
          exact absurd hile (not_le.mpr hlt1)
        · exact h
      refine ⟨idx, hi1, hilen, ?_, hile, rfl⟩
      have := himin (idx - 1) (by omega)
      exact not_le.mp this

/- interpolate is bounded above by any upper bound of the value list. -/
lemma interpolate_le (lam vals : List α) (target b : α)
    (hlen : lam.length = vals.length) (hne : 0 < lam.length)
    (hsort : List.Sorted (· < ·) lam)
    (hub : ∀ v ∈ vals, v ≤ b) :
    interpolate lam vals target ≤ b := by
  have hvne : 0 < vals.length := by omega
  have hub0 : vals.getD 0 0 ≤ b := by
    rw [List.getD_eq_getElem vals 0 hvne]
    exact hub _ (List.getElem_mem _)
  have hublast : vals.getD (vals.length - 1) 0 ≤ b := by
    rw [List.getD_eq_getElem vals 0 (by omega : vals.length - 1 < vals.length)]
    exact hub _ (List.getElem_mem _)
  obtain ⟨hc1, hc2, hc3⟩ := interpolate_cases lam vals target hne hsort
  by_cases h1 : target ≤ lam.getD 0 0
  · rw [hc1 h1]; exact hub0
  by_cases h2 : lam.getD (lam.length - 1) 0 ≤ target
  · rcases hc2 h2 with h | ⟨_, h⟩
    · rw [h]; exact hublast
    · rw [h]; exact hub0
  obtain ⟨i, hi1, hilen, hx0, hx1, heq⟩ := hc3 (not_le.mp h1) (not_le.mp h2)
  rw [heq]
  have hxx : lam.getD (i - 1) 0 < lam.getD i 0 := by
    rw [List.getD_eq_getElem lam 0 (by omega : i - 1 < lam.length),
      List.getD_eq_getElem lam 0 hilen]
    exact List.pairwise_iff_getElem.mp hsort (i - 1) i (by omega) hilen (by omega)
  have hy0 : vals.getD (i - 1) 0 ≤ b := by
    rw [List.getD_eq_getElem vals 0 (by omega : i - 1 < vals.length)]
    exact hub _ (List.getElem_mem _)
  have hy1 : vals.getD i 0 ≤ b := by
    rw [List.getD_eq_getElem vals 0 (by omega : i < vals.length)]
    exact hub _ (List.getElem_mem _)
  set s : α := (target - lam.getD (i - 1) 0) / (lam.getD i 0 - lam.getD (i - 1) 0) with hs
  have hs0 : 0 ≤ s := div_nonneg (by linarith) (by linarith)
  have hs1 : s ≤ 1 := by
    rw [hs, div_le_one (by linarith)]
    linarith
  nlinarith

/- interpolate is strictly above any strict lower bound of the values. -/
lemma lt_interpolate (lam vals : List α) (target a : α)
    (hlen : lam.length = vals.length) (hne : 0 < lam.length)
    (hsort : List.Sorted (· < ·) lam)
    (hlb : ∀ v ∈ vals, a < v) :
    a < interpolate lam vals target := by
  have hvne : 0 < vals.length := by omega
  have hlb0 : a < vals.getD 0 0 := by
    rw [List.getD_eq_getElem vals 0 hvne]
    exact hlb _ (List.getElem_mem _)
  have hlblast : a < vals.getD (vals.length - 1) 0 := by
    rw [List.getD_eq_getElem vals 0 (by omega : vals.length - 1 < vals.length)]
    exact hlb _ (List.getElem_mem _)
  obtain ⟨hc1, hc2, hc3⟩ := interpolate_cases lam vals target hne hsort
  by_cases h1 : target ≤ lam.getD 0 0
  · rw [hc1 h1]; exact hlb0
  by_cases h2 : lam.getD (lam.length - 1) 0 ≤ target
  · rcases hc2 h2 with h | ⟨_, h⟩
    · rw [h]; exact hlblast
    · rw [h]; exact hlb0
  obtain ⟨i, hi1, hilen, hx0, hx1, heq⟩ := hc3 (not_le.mp h1) (not_le.mp h2)
  rw [heq]
  have hxx : lam.getD (i - 1) 0 < lam.getD i 0 := by
    rw [List.getD_eq_getElem lam 0 (by omega : i - 1 < lam.length),
      List.getD_eq_getElem lam 0 hilen]
    exact List.pairwise_iff_getElem.mp hsort (i - 1) i (by omega) hilen (by omega)
  have hy0 : a < vals.getD (i - 1) 0 := by
    rw [List.getD_eq_getElem vals 0 (by omega : i - 1 < vals.length)]
    exact hlb _ (List.getElem_mem _)
  have hy1 : a < vals.getD i 0 := by
    rw [List.getD_eq_getElem vals 0 (by omega : i < vals.length)]
    exact hlb _ (List.getElem_mem _)
  set s : α := (target - lam.getD (i - 1) 0) / (lam.getD i 0 - lam.getD (i - 1) 0) with hs
  have hs0 : 0 ≤ s := div_nonneg (by linarith) (by linarith)
  have hs1 : s ≤ 1 := by
    rw [hs, div_le_one (by linarith)]
    linarith
  rcases eq_or_lt_of_le hs1 with hseq | hslt
  · rw [hseq]
    linarith
  · nlinarith [mul_pos (by linarith : (0 : α) < 1 - s)
      (by linarith : (0 : α) < vals.getD (i - 1) 0 - a),
      mul_nonneg hs0 (by linarith : (0 : α) ≤ vals.getD i 0 - a)]

lemma getD_map_mul (vals : List α) (c : α) (i : ℕ) :
    (vals.map (fun v => c * v)).getD i 0 = c * vals.getD i 0 := by
  by_cases h : i < vals.length
  · rw [List.getD_eq_getElem _ 0 (by simpa using h), List.getD_eq_getElem _ 0 h,
      List.getElem_map]
  · rw [List.getD_eq_default _ 0 (by simpa using not_lt.mp h),
      List.getD_eq_default _ 0 (not_lt.mp h), mul_zero]

/- interpolate is linear in the value list (uniform scaling factors out). -/
lemma interpolate_map_mul (lam vals : List α) (target c : α) :
    interpolate lam (vals.map (fun v => c * v)) target
      = c * interpolate lam vals target := by
  unfold interpolate
  split_ifs with h1 h2 h3
  · exact (mul_zero c).symm
  · exact getD_map_mul vals c 0
  · rw [List.length_map]
    exact getD_map_mul vals c (vals.length - 1)
  · rcases hf : findGE target lam 0 with _ | idx
    · exact (mul_zero c).symm
    · simp only [getD_map_mul]
      ring

end InterpolateLemmas

section ClaimC7

/-- Claim C7: on a nonempty strictly ascending curve, interpolate
edge-holds (first value at or below the minimum wavelength, last value at
or above the maximum) and otherwise linearly interpolates
y0 + (y1 - y0)·(target - x0)/(x1 - x0) between the bracketing points. -/
theorem c7_interpolate_spec (lam vals : List ℚ) (target : ℚ)
    (hlen : lam.length = vals.length) (hne : 0 < lam.length)
    (hsort : List.Sorted (· < ·) lam) :
    (target ≤ lam.getD 0 0 → interpolate lam vals target = vals.getD 0 0) ∧
      (lam.getD (lam.length - 1) 0 ≤ target →
        interpolate lam vals target = vals.getD (vals.length - 1) 0) ∧
      (lam.getD 0 0 < target → target < lam.getD (lam.length - 1) 0 →
        ∃ i, 1 ≤ i ∧ i < lam.length ∧
          lam.getD (i - 1) 0 < target ∧ target ≤ lam.getD i 0 ∧
          interpolate lam vals target =
            vals.getD (i - 1) 0 + (vals.getD i 0 - vals.getD (i - 1) 0) *
              ((target - lam.getD (i - 1) 0) / (lam.getD i 0 - lam.getD (i - 1) 0))) := by
  obtain ⟨hc1, hc2, hc3⟩ := interpolate_cases lam vals target hne hsort
  refine ⟨hc1, ?_, hc3⟩
  intro hge
  rcases hc2 hge with h | ⟨hlen1, h⟩
  · exact h
  · have hv1 : vals.length - 1 = 0 := by omega
    rw [h, hv1]

/-- Witness for C7 (the below-minimum clause) on the two-point curve
(400, 1), (500, 3) at target 300. -/
theorem c7_witness :
    ([400, 500] : List ℚ).length = ([1, 3] : List ℚ).length ∧
      0 < ([400, 500] : List ℚ).length ∧
      List.Sorted (· < ·) ([400, 500] : List ℚ) ∧
      ((300 : ℚ) ≤ ([400, 500] : List ℚ).getD 0 0 →
        interpolate ([400, 500] : List ℚ) ([1, 3] : List ℚ) 300
          = ([1, 3] : List ℚ).getD 0 0) :=
  ⟨rfl, by decide, by decide,
    (c7_interpolate_spec [400, 500] [1, 3] 300 rfl (by decide) (by decide)).1⟩

end ClaimC7

section ClaimC8

/-- Claim C8 counterexample: on an empty curve, interpolate returns the
value 0 (both JS boundary comparisons against undefined are false and
findIndex yields -1), so the call does not fail with InvalidInput. -/
theorem c8_counterexample : interpolate ([] : List ℚ) [] 500 = 0 := by
  decide

/-- Claim C8 (amended): called on a curve with fewer than 1 point,
interpolate returns 0 instead of failing with an InvalidInput error. -/
theorem c8_empty_returns_zero (vals : List ℚ) (target : ℚ) :
    interpolate ([] : List ℚ) vals target = 0 := by
  unfold interpolate
  norm_num

end ClaimC8

section ColorLemmas

variable {α : Type*} [LinearOrderedField α]

/- interpolate is bounded below by any lower bound of the value list. -/
lemma le_interpolate (lam vals : List α) (target a : α)
    (hlen : lam.length = vals.length) (hne : 0 < lam.length)
    (hsort : List.Sorted (· < ·) lam)
    (hlb : ∀ v ∈ vals, a ≤ v) :
    a ≤ interpolate lam vals target := by
  have hvne : 0 < vals.length := by omega
  have hlb0 : a ≤ vals.getD 0 0 := by
    rw [List.getD_eq_getElem vals 0 hvne]
    exact hlb _ (List.getElem_mem _)
  have hlblast : a ≤ vals.getD (vals.length - 1) 0 := by
    rw [List.getD_eq_getElem vals 0 (by omega : vals.length - 1 < vals.length)]
    exact hlb _ (List.getElem_mem _)
  obtain ⟨hc1, hc2, hc3⟩ := interpolate_cases lam vals target hne hsort
  by_cases h1 : target ≤ lam.getD 0 0
  · rw [hc1 h1]; exact hlb0
  by_cases h2 : lam.getD (lam.length - 1) 0 ≤ target
  · rcases hc2 h2 with h | ⟨_, h⟩
    · rw [h]; exact hlblast
    · rw [h]; exact hlb0
  obtain ⟨i, hi1, hilen, hx0, hx1, heq⟩ := hc3 (not_le.mp h1) (not_le.mp h2)
  rw [heq]
  have hxx : lam.getD (i - 1) 0 < lam.getD i 0 := by
    rw [List.getD_eq_getElem lam 0 (by omega : i - 1 < lam.length),
      List.getD_eq_getElem lam 0 hilen]
    exact List.pairwise_iff_getElem.mp hsort (i - 1) i (by omega) hilen (by omega)
  have hy0 : a ≤ vals.getD (i - 1) 0 := by
    rw [List.getD_eq_getElem vals 0 (by omega : i - 1 < vals.length)]
    exact hlb _ (List.getElem_mem _)
  have hy1 : a ≤ vals.getD i 0 := by
    rw [List.getD_eq_getElem vals 0 (by omega : i < vals.length)]
    exact hlb _ (List.getElem_mem _)
  set s : α := (target - lam.getD (i - 1) 0) / (lam.getD i 0 - lam.getD (i - 1) 0) with hs
  have hs0 : 0 ≤ s := div_nonneg (by linarith) (by linarith)
  have hs1 : s ≤ 1 := by
    rw [hs, div_le_one (by linarith)]
    linarith
  nlinarith

/- On a curve whose values are all c, interpolate returns c. -/
lemma interpolate_eq_const (lam vals : List α) (target c : α)
    (hlen : lam.length = vals.length) (hne : 0 < lam.length)
    (hsort : List.Sorted (· < ·) lam)
    (hconst : ∀ v ∈ vals, v = c) :
    interpolate lam vals target = c :=
  le_antisymm
    (interpolate_le lam vals target c hlen hne hsort (fun v hv => (hconst v hv).le))
    (le_interpolate lam vals target c hlen hne hsort (fun v hv => (hconst v hv).ge))

/- When every rFactor along the 10 nm grid is the constant c, the Y
   integral is c times the normaliser. -/
lemma sumY_of_rFactor_const (lam R : List α) (c : α)
    (h : ∀ p ∈ cmfData, rFactor lam R p.nm = c) :
    sumY lam R = c * sumN := by
  unfold sumY sumN
  rw [show (cmfData.map fun p => rFactor lam R p.nm * ((p.d65 : α)) * ((p.y : α)))
        = cmfData.map fun p => c * (((p.d65 : α)) * ((p.y : α))) from
      List.map_congr_left (fun p hp => by rw [h p hp]; ring)]
  rw [List.sum_map_mul_left]

lemma sumN_pos : (0 : ℚ) < sumN := by
  norm_num [sumN, cmfData]

lemma cmfData_pos : ∀ p ∈ cmfData, (0 : ℚ) < ((p.d65 : ℚ)) ∧ (0 : ℚ) < ((p.y : ℚ)) := by
  intro p hp
  simp only [cmfData, List.mem_cons, List.not_mem_nil, or_false] at hp
  rcases hp with h | h | h | h | h | h | h | h | h | h | h | h | h | h | h | h |
    h | h | h | h | h | h | h | h | h | h | h | h | h | h | h <;>
    rw [h] <;> norm_num

end ColorLemmas

section ClaimC4

/-- Claim C4 counterexample: scaling the flat reflectance curve 0.9 on
[400, 700] by the factor 1.5 pushes the values above 1, which
reflectanceToColor then treats as percent values and divides by 100, so
the Y tristimulus value drops (from 90 to 1.35) instead of increasing. -/
theorem c4_counterexample :
    (1 : ℚ) < 3 / 2 ∧
      tristimulusY ([400, 700] : List ℚ)
          (List.map (fun v => (3 / 2 : ℚ) * v) [9 / 10, 9 / 10])
        < tristimulusY ([400, 700] : List ℚ) [9 / 10, 9 / 10] := by
  have hsort : List.Sorted (· < ·) ([400, 700] : List ℚ) := by
    norm_num [List.sorted_cons]
  have hmap : List.map (fun v => (3 / 2 : ℚ) * v) [9 / 10, 9 / 10]
      = [27 / 20, 27 / 20] := by
    norm_num
  have hrf1 : ∀ p ∈ cmfData, rFactor ([400, 700] : List ℚ) [9 / 10, 9 / 10] p.nm
      = 9 / 10 := by
    intro p hp
    have hint : interpolate ([400, 700] : List ℚ) [9 / 10, 9 / 10] (((p.nm : ℚ)) : ℚ)
        = 9 / 10 :=
      interpolate_eq_const _ _ _ _ rfl (by norm_num) hsort
        (by intro v hv; simpa using hv)
    simp only [rFactor, Rat.cast_id]
    rw [hint, if_neg (by norm_num)]
  have hrf2 : ∀ p ∈ cmfData, rFactor ([400, 700] : List ℚ) [27 / 20, 27 / 20] p.nm
      = 27 / 2000 := by
    intro p hp
    have hint : interpolate ([400, 700] : List ℚ) [27 / 20, 27 / 20] (((p.nm : ℚ)) : ℚ)
        = 27 / 20 :=
      interpolate_eq_const _ _ _ _ rfl (by norm_num) hsort
        (by intro v hv; simpa using hv)
    simp only [rFactor, Rat.cast_id]
    rw [hint, if_pos (by norm_num)]
    norm_num
  have hN := sumN_pos
  have hY1 : tristimulusY ([400, 700] : List ℚ) [9 / 10, 9 / 10] = 90 := by
    unfold tristimulusY
    rw [sumY_of_rFactor_const _ _ _ hrf1, mul_div_assoc, div_self (ne_of_gt hN)]
    norm_num
  have hY2 : tristimulusY ([400, 700] : List ℚ) [27 / 20, 27 / 20] = 27 / 20 := by
    unfold tristimulusY
    rw [sumY_of_rFactor_const _ _ _ hrf2, mul_div_assoc, div_self (ne_of_gt hN)]
    norm_num
  refine ⟨by norm_num, ?_⟩
  rw [hmap, hY1, hY2]
  norm_num

/-- Claim C4 (amended): reflectanceToColor is monotonic in luminance on
curves that stay inside the direct-reflectance convention: for a nonempty
strictly ascending wavelength grid and positive reflectance values, a
uniform scaling by k > 1 that keeps all scaled values ≤ 1 (so the
percent-normalisation branch never fires) strictly increases the Y
tristimulus value. -/
theorem c4_monotonic (lam R : List ℚ) (k : ℚ)
    (hlen : lam.length = R.length) (hne : 0 < lam.length)
    (hsort : List.Sorted (· < ·) lam)
    (hpos : ∀ v ∈ R, 0 < v) (hk : 1 < k)
    (hub : ∀ v ∈ R, k * v ≤ 1) :
    tristimulusY lam R < tristimulusY lam (R.map (fun v => k * v)) := by
  have hub1 : ∀ v ∈ R, v ≤ 1 := by
    intro v hv
    have h1 := hpos v hv
    have h2 := hub v hv
    nlinarith
  have hterm : ∀ p ∈ cmfData,
      rFactor lam R p.nm * ((p.d65 : ℚ)) * ((p.y : ℚ))
        < rFactor lam (R.map (fun v => k * v)) p.nm * ((p.d65 : ℚ)) * ((p.y : ℚ)) := by
    intro p hp
    have hintpos : 0 < interpolate lam R (((p.nm : ℚ)) : ℚ) :=
      lt_interpolate lam R _ 0 hlen hne hsort hpos
    have hintle : interpolate lam R (((p.nm : ℚ)) : ℚ) ≤ 1 :=
      interpolate_le lam R _ 1 hlen hne hsort hub1
    have hmaple : interpolate lam (R.map (fun v => k * v)) (((p.nm : ℚ)) : ℚ) ≤ 1 := by
      refine interpolate_le lam _ _ 1 (by rw [List.length_map]; exact hlen) hne hsort ?_
      intro w hw
      obtain ⟨v, hv, rfl⟩ := List.mem_map.mp hw
      exact hub v hv
    have hrfR : rFactor lam R p.nm = interpolate lam R (((p.nm : ℚ)) : ℚ) := by
      simp only [rFactor, Rat.cast_id]
      rw [if_neg (not_lt.mpr hintle)]
    have hrfM : rFactor lam (R.map (fun v => k * v)) p.nm
        = k * interpolate lam R (((p.nm : ℚ)) : ℚ) := by
      simp only [rFactor, Rat.cast_id]
      rw [if_neg (not_lt.mpr hmaple)]
      exact interpolate_map_mul lam R _ k
    rw [hrfR, hrfM]
    have hdy := cmfData_pos p hp
    have hbase : 0 < interpolate lam R (((p.nm : ℚ)) : ℚ) * ((p.d65 : ℚ)) * ((p.y : ℚ)) :=
      mul_pos (mul_pos hintpos hdy.1) hdy.2
    calc interpolate lam R (((p.nm : ℚ)) : ℚ) * ((p.d65 : ℚ)) * ((p.y : ℚ))
        < k * (interpolate lam R (((p.nm : ℚ)) : ℚ) * ((p.d65 : ℚ)) * ((p.y : ℚ))) :=
          lt_mul_of_one_lt_left hbase hk
      _ = k * interpolate lam R (((p.nm : ℚ)) : ℚ) * ((p.d65 : ℚ)) * ((p.y : ℚ)) := by
          ring
  have hsum : sumY lam R < sumY lam (R.map (fun v => k * v)) := by
    unfold sumY
    refine List.sum_lt_sum _ _ (fun p hp => (hterm p hp).le) ?_
    refine ⟨⟨400, 0.0143, 0.0004, 0.0679, 82.75⟩, ?_, ?_⟩
    · unfold cmfData
      exact List.mem_cons_self _ _
    · exact hterm _ (by unfold cmfData; exact List.mem_cons_self _ _)
  unfold tristimulusY
  exact mul_lt_mul_of_pos_right (div_lt_div_of_pos_right hsum sumN_pos) (by norm_num)

/-- Witness for the amended C4 on the flat curve 0.5 over [400, 700]
scaled by 3/2. -/
theorem c4_witness :
    ([400, 700] : List ℚ).length = ([1 / 2, 1 / 2] : List ℚ).length ∧
      0 < ([400, 700] : List ℚ).length ∧
      List.Sorted (· < ·) ([400, 700] : List ℚ) ∧
      (∀ v ∈ ([1 / 2, 1 / 2] : List ℚ), 0 < v) ∧
      (1 : ℚ) < 3 / 2 ∧
      (∀ v ∈ ([1 / 2, 1 / 2] : List ℚ), (3 / 2 : ℚ) * v ≤ 1) ∧
      tristimulusY ([400, 700] : List ℚ) [1 / 2, 1 / 2]
        < tristimulusY ([400, 700] : List ℚ)
            (([1 / 2, 1 / 2] : List ℚ).map (fun v => (3 / 2 : ℚ) * v)) := by
  have hsort : List.Sorted (· < ·) ([400, 700] : List ℚ) := by
    norm_num [List.sorted_cons]
  have hpos : ∀ v ∈ ([1 / 2, 1 / 2] : List ℚ), 0 < v := by
    intro v hv
    simp only [List.mem_cons, List.not_mem_nil, or_false] at hv
    rcases hv with h | h <;> rw [h] <;> norm_num
  have hub : ∀ v ∈ ([1 / 2, 1 / 2] : List ℚ), (3 / 2 : ℚ) * v ≤ 1 := by
    intro v hv
    simp only [List.mem_cons, List.not_mem_nil, or_false] at hv
    rcases hv with h | h <;> rw [h] <;> norm_num
  exact ⟨rfl, by norm_num, hsort, hpos, by norm_num, hub,
    c4_monotonic [400, 700] [1 / 2, 1 / 2] (3 / 2) rfl (by norm_num) hsort hpos
      (by norm_num) hub⟩

end ClaimC4

section MockLemmas

/- Concrete one-point fixtures for the mock resolution endpoint. -/
def sampleSpec : StoredSpectrum := ⟨⟨"Sample"⟩, ⟨[400], [1]⟩⟩

def stdSpec : StoredSpectrum := ⟨⟨"Std"⟩, ⟨[400], [1]⟩⟩

def dbEx : String → Option StoredSpectrum := fun f =>
  if f = "s" then some sampleSpec else if f = "t" then some stdSpec else none

def randZero : ℕ → ℚ := fun _ => 0

def randHalf : ℕ → ℚ := fun _ => 1 / 2

def resEx0 : ConcentrationResult :=
  ⟨[⟨"Std", 1 / 10, 100⟩], ⟨12 / 10000, 15 / 1000⟩,
    ⟨[400], [1], [96 / 100], [1 - 96 / 100]⟩⟩

def resExHalf : ConcentrationResult :=
  ⟨[⟨"Std", 9 / 20, 100⟩], ⟨16 / 10000, 35 / 2000⟩,
    ⟨[400], [1], [1], [0]⟩⟩

lemma analyze_dbEx_randZero :
    analyzeConcentration dbEx "s" ["t"] randZero = some resEx0 := by
  simp only [analyzeConcentration, dbEx, mockComponents, mockTotalConc, withContribution,
    mockFitted, mockResidual, componentName, randZero, sampleSpec, stdSpec, resEx0]
  norm_num [List.range_succ]
  decide

lemma analyze_dbEx_randHalf :
    analyzeConcentration dbEx "s" ["t"] randHalf = some resExHalf := by
  simp only [analyzeConcentration, dbEx, mockComponents, mockTotalConc, withContribution,
    mockFitted, mockResidual, componentName, randHalf, sampleSpec, stdSpec, resExHalf]
  norm_num [List.range_succ]
  decide

lemma getD_map_range (m : ℕ) (f : ℕ → ℚ) (j : ℕ) (h : j < m) :
    ((List.range m).map f).getD j 0 = f j := by
  rw [List.getD_eq_getElem _ 0 (by simpa using h), List.getElem_map, List.getElem_range]

/- The contribution pass keeps each component's concentration. -/
lemma withContribution_concentrations (T : ℚ) (comps : List Component) :
    ((withContribution T comps).map (fun c => c.concentration))
      = comps.map (fun c => c.concentration) := by
  unfold withContribution
  rw [List.map_map]
  rfl

lemma mockComponents_conc_nonneg (db : String → Option StoredSpectrum)
    (fs : List String) (rand : ℕ → ℚ) (hr : ∀ i, 0 ≤ rand i) :
    ∀ c ∈ mockComponents db fs rand, 0 ≤ c.concentration := by
  intro c hc
  unfold mockComponents at hc
  obtain ⟨i, _, rfl⟩ := List.mem_map.mp hc
  have h7 : 0 ≤ rand i * (7 / 10) := mul_nonneg (hr i) (by norm_num)
  simp only
  linarith

/- With a positive total equal to the concentration sum, the filled-in
   contributions sum to exactly 100. -/
lemma withContribution_sum (T : ℚ) (comps : List Component)
    (hT : T = (comps.map (fun c => c.concentration)).sum) (hpos : 0 < T) :
    ((withContribution T comps).map (fun c => c.contribution)).sum = 100 := by
  unfold withContribution
  rw [List.map_map]
  have hfun : ∀ c ∈ comps,
      ((fun c => c.contribution) ∘ fun c : Component =>
        { c with contribution := if 0 < T then c.concentration / T * 100 else 0 }) c
          = c.concentration * (100 / T) := by
    intro c _
    simp only [Function.comp]
    rw [if_pos hpos]
    ring
  rw [List.map_congr_left hfun, List.sum_map_mul_right, ← hT]
  field_simp

lemma withContribution_zero (T : ℚ) (comps : List Component) (hzero : ¬ 0 < T) :
    ∀ c ∈ withContribution T comps, c.contribution = 0 := by
  intro c hc
  unfold withContribution at hc
  obtain ⟨c0, _, rfl⟩ := List.mem_map.mp hc
  simp only
  rw [if_neg hzero]

end MockLemmas

section ClaimC1

/-- Claim C1 counterexample: with the fixture database (sample and single
standard both the constant curve 1 at 400 nm) and the all-zeros random
stream, the mock NNLS endpoint returns concentration 1/10 but fitted
value 96/100 (the original perturbed by the 0.96 factor), which is not
the linear combination (1/10)·1 within 1e-9 relative tolerance. -/
theorem c1_counterexample :
    (analyzeConcentration dbEx "s" ["t"] randZero).map
        (fun r => r.chart_data.fitted) = some [96 / 100] ∧
      (analyzeConcentration dbEx "s" ["t"] randZero).map
        (fun r => r.components.map (fun c => c.concentration)) = some [1 / 10] ∧
      stdSpec.data.A = [1] ∧
      ¬ (|(96 / 100 : ℚ) - 1 / 10 * 1| ≤ 1e-9 * |(1 / 10 : ℚ) * 1|) := by
  rw [analyze_dbEx_randZero]
  refine ⟨by norm_num [resEx0], by norm_num [resEx0], rfl, ?_⟩
  rw [abs_of_pos (by norm_num), abs_of_pos (by norm_num)]
  norm_num

/-- Claim C1 (amended): in every result of the mock NNLS endpoint, the
residual array is the sample curve minus the fitted array pointwise, and
the fitted array is the sample curve scaled pointwise by the random
perturbation factors 0.96 + 0.08·rand (not the concentration-weighted
combination of the standard curves). -/
theorem c1_residual_eq (db : String → Option StoredSpectrum) (s : String)
    (fs : List String) (rand : ℕ → ℚ) (res : ConcentrationResult)
    (h : analyzeConcentration db s fs rand = some res) :
    res.chart_data.residual.length = res.chart_data.original.length ∧
      res.chart_data.fitted.length = res.chart_data.original.length ∧
      ∀ j < res.chart_data.original.length,
        res.chart_data.residual.getD j 0
            = res.chart_data.original.getD j 0 - res.chart_data.fitted.getD j 0 ∧
          res.chart_data.fitted.getD j 0
            = res.chart_data.original.getD j 0
                * (96 / 100 + rand (fs.length + j) * (8 / 100)) := by
  unfold analyzeConcentration at h
  cases hdb : db s with
  | none => rw [hdb] at h; simp at h
  | some sample =>
    rw [hdb] at h
    simp only [Option.some.injEq] at h
    subst h
    simp only [mockResidual, mockFitted, List.length_map, List.length_range]
    refine ⟨trivial, trivial, ?_⟩
    intro j hj
    constructor
    · rw [getD_map_range _ _ j hj, getD_map_range _ _ j hj]
    · rw [getD_map_range _ _ j hj]

/-- Witness for the amended C1 on the fixture database. -/
theorem c1_witness :
    analyzeConcentration dbEx "s" ["t"] randZero = some resEx0 ∧
      resEx0.chart_data.residual.length = resEx0.chart_data.original.length ∧
      resEx0.chart_data.fitted.length = resEx0.chart_data.original.length ∧
      ∀ j < resEx0.chart_data.original.length,
        resEx0.chart_data.residual.getD j 0
            = resEx0.chart_data.original.getD j 0 - resEx0.chart_data.fitted.getD j 0 ∧
          resEx0.chart_data.fitted.getD j 0
            = resEx0.chart_data.original.getD j 0
                * (96 / 100 + randZero (["t"].length + j) * (8 / 100)) :=
  ⟨analyze_dbEx_randZero,
    c1_residual_eq dbEx "s" ["t"] randZero resEx0 analyze_dbEx_randZero⟩

end ClaimC1

section ClaimC6

/-- Claim C6: whenever the random draws are nonnegative (Math.random is in
[0, 1)), every concentration in a mock NNLS result is ≥ 0, the
contribution percentages sum to 100 within 1e-6 when the total
concentration is positive, and every contribution is 0 when the total
concentration is 0. -/
theorem c6_invariants (db : String → Option StoredSpectrum) (s : String)
    (fs : List String) (rand : ℕ → ℚ) (res : ConcentrationResult)
    (hr : ∀ i, 0 ≤ rand i)
    (h : analyzeConcentration db s fs rand = some res) :
    (∀ c ∈ res.components, 0 ≤ c.concentration) ∧
      (0 < (res.components.map (fun c => c.concentration)).sum →
        |(res.components.map (fun c => c.contribution)).sum - 100| ≤ 1e-6) ∧
      ((res.components.map (fun c => c.concentration)).sum = 0 →
        ∀ c ∈ res.components, c.contribution = 0) := by
  unfold analyzeConcentration at h
  cases hdb : db s with
  | none => rw [hdb] at h; simp at h
  | some sample =>
    rw [hdb] at h
    simp only [Option.some.injEq] at h
    subst h
    simp only
    have hsum : ((withContribution (mockTotalConc db fs rand)
        (mockComponents db fs rand)).map (fun c => c.concentration))
          = (mockComponents db fs rand).map (fun c => c.concentration) :=
      withContribution_concentrations _ _
    refine ⟨?_, ?_, ?_⟩
    · intro c hc
      unfold withContribution at hc
      obtain ⟨c0, hc0, rfl⟩ := List.mem_map.mp hc
      simpa using mockComponents_conc_nonneg db fs rand hr c0 hc0
    · intro hpos
      rw [hsum] at hpos
      rw [withContribution_sum (mockTotalConc db fs rand)
        (mockComponents db fs rand) rfl hpos]
      norm_num
    · intro hzero
      rw [hsum] at hzero
      refine withContribution_zero _ _ ?_
      rw [show mockTotalConc db fs rand
          = ((mockComponents db fs rand).map (fun c => c.concentration)).sum from rfl,
        hzero]
      norm_num

/-- Witness for C6 on the fixture database with the all-zeros stream. -/
theorem c6_witness :
    (∀ i : ℕ, 0 ≤ randZero i) ∧
      (∀ c ∈ resEx0.components, 0 ≤ c.concentration) ∧
      (0 < (resEx0.components.map (fun c => c.concentration)).sum →
        |(resEx0.components.map (fun c => c.contribution)).sum - 100| ≤ 1e-6) ∧
      ((resEx0.components.map (fun c => c.concentration)).sum = 0 →
        ∀ c ∈ resEx0.components, c.contribution = 0) :=
  ⟨fun _ => le_refl 0,
    c6_invariants dbEx "s" ["t"] randZero resEx0 (fun _ => le_refl 0)
      analyze_dbEx_randZero⟩

end ClaimC6

section ClaimC5

/-- Claim C5 counterexample: two calls of the mock NNLS endpoint with the
exact same database, sample and standard set but different Math.random()
draws (all-zeros vs all-one-half) return different concentration lists
(1/10 vs 9/20), so the result is not a pure function of the sample and
standard set alone. -/
theorem c5_counterexample :
    (analyzeConcentration dbEx "s" ["t"] randZero).map
        (fun r => r.components.map (fun c => c.concentration))
      ≠ (analyzeConcentration dbEx "s" ["t"] randHalf).map
        (fun r => r.components.map (fun c => c.concentration)) := by
  rw [analyze_dbEx_randZero, analyze_dbEx_randHalf]
  simp only [Option.map_some, Option.some.injEq, resEx0, resExHalf,
    List.map_cons, List.map_nil, ne_eq, List.cons.injEq, and_true]
  norm_num

/-- Claim C5 (amended): the mock NNLS endpoint is deterministic in its
full inputs — the stored database restricted to the sample filename and
the standard filenames, and the Math.random() draw stream: two calls
agreeing on those produce identical results.  It is not a function of
the sample and standard set alone (see the counterexample). -/
theorem c5_deterministic (db1 db2 : String → Option StoredSpectrum)
    (s : String) (fs : List String) (rand1 rand2 : ℕ → ℚ)
    (hdbs : db1 s = db2 s)
    (hdbf : ∀ f ∈ fs, db1 f = db2 f)
    (hrand : ∀ i, rand1 i = rand2 i) :
    analyzeConcentration db1 s fs rand1 = analyzeConcentration db2 s fs rand2 := by
  have hre : rand1 = rand2 := funext hrand
  subst hre
  have hcomps : mockComponents db1 fs rand1 = mockComponents db2 fs rand1 := by
    unfold mockComponents
    apply List.map_congr_left
    intro i hi
    simp only [List.mem_range] at hi
    have hmem : fs.getD i "" ∈ fs := by
      rw [List.getD_eq_getElem fs "" hi]
      exact List.getElem_mem _
    unfold componentName
    rw [hdbf _ hmem]
  unfold analyzeConcentration mockTotalConc
  rw [hdbs, hcomps]

/-- Witness for the amended C5: both calls on the fixture database with
the all-zeros stream agree. -/
theorem c5_witness :
    dbEx "s" = dbEx "s" ∧ (∀ f ∈ (["t"] : List String), dbEx f = dbEx f) ∧
      (∀ i : ℕ, randZero i = randZero i) ∧
      analyzeConcentration dbEx "s" ["t"] randZero
        = analyzeConcentration dbEx "s" ["t"] randZero :=
  ⟨rfl, fun _ _ => rfl, fun _ => rfl,
    c5_deterministic dbEx dbEx "s" ["t"] randZero randZero rfl
      (fun _ _ => rfl) (fun _ => rfl)⟩

end ClaimC5

end Dyeing
